import Mathlib

/-!
Shallow embedding of `redislock.go` (package `redislock`): a Redis-backed
distributed lock built on two Lua scripts (`lockCommand`, `delCommand`),
a handle type `RedisLock`, and the operations `Acquire`, `TryLockTimeout`,
`Release`, `SetExpire`.

The Redis store is modelled as an association list from keys to entries
carrying a value and an absolute expiry time in milliseconds; a key is
"live" at time `now` when `now < expireAt`.  The Lua scripts are embedded
as pure functions on that store; go-redis reply handling (the `red.Nil`
error for a Lua nil reply, the `resp.(string)` / `resp.(int64)` type
assertions) is embedded as functions on an explicit reply type.
-/

/-- Shapes of a go-redis `Eval(...).Result()` reply value (`interface{}`):
a string, an `int64`, or a nil interface value. -/
inductive Reply where
  | str : String → Reply
  | num : Int → Reply
  | nilv : Reply
deriving DecidableEq, Repr

/-- Errors from a store round trip: `red.Nil` (go-redis's sentinel for a
nil reply) or a communication failure carrying a message. -/
inductive RErr where
  | redNil : RErr
  | comm : String → RErr
deriving DecidableEq, Repr

/-- A stored key's state: its value and its absolute expiry (milliseconds). -/
structure Entry where
  value : String
  expireAt : Nat
deriving DecidableEq, Repr

/-- The store: an association list from keys to entries. -/
abbrev Store := List (String × Entry)

/-- Raw lookup of a key in the store (ignoring expiry). -/
def lookupKey : Store → String → Option Entry
  | [], _ => none
  | (k, e) :: rest, k' => if k' = k then some e else lookupKey rest k'

/-- `SET key value PX ...`: replace any binding of `k`. -/
def setKey (s : Store) (k : String) (e : Entry) : Store :=
  (k, e) :: s.filter (fun p => ¬ p.1 = k)

/-- `DEL key`: remove any binding of `k`. -/
def delKey (s : Store) (k : String) : Store :=
  s.filter (fun p => ¬ p.1 = k)

/-- `GET key` at time `now`: the stored value if the key exists and is
not expired, else nil. -/
def getLive (s : Store) (now : Nat) (k : String) : Option String :=
  match lookupKey s k with
  | some e => if now < e.expireAt then some e.value else none
  | none => none

/-- Source constant `tolerance = 500` (milliseconds). -/
def tolerance : Nat := 500

/-- Source constant `millisPerSecond = 1000`. -/
def millisPerSecond : Nat := 1000

/-- Source constant `randomLen = 16`. -/
def randomLen : Nat := 16

/-- Source constant `letters`. -/
def letters : String := "abcdefghijklmnopqrstuvwxyzABCDEFGHIJKLMNOPQRSTUVWXYZ"

/-- The lock handle (Go struct `RedisLock`): the `redis` client field is
the external collaborator and is not part of the state; `seconds` is the
Go `uint32` lease field, represented as a `Nat` (always `< 2^32`). -/
structure RedisLock where
  seconds : Nat
  key : String
  id : String
deriving DecidableEq, Repr

/-- Go `New(redis, key, prefix)`: the token `tok` stands for the random
string `randomStr(randomLen)` generated at construction. -/
def New (key pre tok : String) : RedisLock :=
  { seconds := 3, key := pre ++ key, id := tok }

/-- The expiry argument Acquire passes to the store:
`int(seconds)*millisPerSecond + tolerance` (milliseconds). -/
def requestedExpiry (rl : RedisLock) : Nat :=
  rl.seconds * millisPerSecond + tolerance

/-- The Lua `lockCommand` script run atomically by the store at time `now`:
if `GET key == tok` then `SET key tok PX px` and reply `"OK"`, else reply
with `SET key tok NX PX px` (which is `"OK"` when the key is absent and a
nil reply when it exists). -/
def evalLock (s : Store) (now : Nat) (key tok : String) (px : Nat) :
    Store × Reply :=
  if getLive s now key = some tok then
    (setKey s key ⟨tok, now + px⟩, Reply.str "OK")
  else
    match getLive s now key with
    | some _ => (s, Reply.nilv)
    | none => (setKey s key ⟨tok, now + px⟩, Reply.str "OK")

/-- The Lua `delCommand` script run atomically by the store at time `now`:
if `GET key == tok` then `DEL key` (replying the delete count, here 1),
else reply 0. -/
def evalDel (s : Store) (now : Nat) (key tok : String) : Store × Reply :=
  if getLive s now key = some tok then (delKey s key, Reply.num 1)
  else (s, Reply.num 0)

/-- go-redis surfaces a Lua nil reply as the error `red.Nil`. -/
def replyToResult : Reply → Except RErr Reply
  | Reply.nilv => Except.error RErr.redNil
  | r => Except.ok r

/-- The error- and reply-handling tail of Go `Acquire` (lines 64–79):
`red.Nil` ↦ `(false, nil)`; any other error is propagated; a nil reply
value ↦ `(false, nil)`; a string reply equal to `"OK"` ↦ `(true, nil)`;
any other reply shape ↦ `(false, nil)`. -/
def acquireFromResult : Except RErr Reply → Bool × Option RErr
  | Except.error RErr.redNil => (false, none)
  | Except.error e => (false, some e)
  | Except.ok Reply.nilv => (false, none)
  | Except.ok (Reply.str s) =>
      if s = "OK" then (true, none) else (false, none)
  | Except.ok (Reply.num _) => (false, none)

/-- The error- and reply-handling tail of Go `Release` (lines 102–111):
any error is propagated; a non-`int64` reply ↦ `(false, nil)`; an `int64`
reply `n` ↦ `(n == 1, nil)`. -/
def releaseFromResult : Except RErr Reply → Bool × Option RErr
  | Except.error e => (false, some e)
  | Except.ok (Reply.num n) => (n == 1, none)
  | Except.ok _ => (false, none)

/-- Go `Acquire` with a successful store round trip: run `lockCommand`
with the handle's key, token and requested expiry, then map the reply. -/
def Acquire (rl : RedisLock) (s : Store) (now : Nat) :
    Store × Bool × Option RErr :=
  let r := evalLock s now rl.key rl.id (requestedExpiry rl)
  (r.1, acquireFromResult (replyToResult r.2))

/-- Go `Release` with a successful store round trip: run `delCommand`
with the handle's key and token, then map the reply. -/
def Release (rl : RedisLock) (s : Store) (now : Nat) :
    Store × Bool × Option RErr :=
  let r := evalDel s now rl.key rl.id
  (r.1, releaseFromResult (replyToResult r.2))

/-- Go `SetExpire(seconds int)`: stores `uint32(seconds)`, i.e. the
argument reduced modulo `2^32`. -/
def SetExpire (rl : RedisLock) (seconds : Int) : RedisLock :=
  { rl with seconds := (seconds % (2 ^ 32 : Int)).toNat }

/-- Events of one `TryLockTimeout` run: an `Acquire` attempt (indexed by
loop iteration) or a `time.Sleep` of the given number of milliseconds. -/
inductive TLEvent where
  | attempt : Nat → TLEvent
  | sleep : Nat → TLEvent
deriving DecidableEq, Repr

/-- Outcome of a `TryLockTimeout` run: `(true, nil)` on success, or the
`Cann't acquiring lock within ...` error carrying the configured timeout;
`outOfFuel` marks an exhausted recursion bound, never the Go code's own
exit. -/
inductive TLResult where
  | acquired : TLResult
  | timedOut : ℚ → TLResult
  | outOfFuel : TLResult
deriving DecidableEq

/-- Go `TryLockTimeout(timeOutSeconds)` (lines 82–97), as a function of
the wall-clock elapsed seconds `el i` observed at the top of iteration
`i` (`time.Since(startTime).Seconds()`) and of the outcome `oc i` of the
`Acquire` call made in iteration `i`.  Returns the trace of attempts and
sleeps together with the result: while `el i < timeOutSeconds`, attempt
`Acquire`; on `(true, nil)` return success at once; on any other outcome
sleep 70 ms and loop; once the guard fails, exit with the timeout error. -/
def TryLockTimeout (timeout : ℚ) (el : Nat → ℚ) (oc : Nat → Bool × Option RErr) :
    Nat → Nat → List TLEvent × TLResult
  | _, 0 => ([], TLResult.outOfFuel)
  | i, fuel + 1 =>
    if el i < timeout then
      if (oc i).1 = false ∨ (oc i).2 ≠ none then
        let r := TryLockTimeout timeout el oc (i + 1) fuel
        (TLEvent.attempt i :: TLEvent.sleep 70 :: r.1, r.2)
      else
        ([TLEvent.attempt i], TLResult.acquired)
    else
      ([], TLResult.timedOut timeout)

/-- Go method call `rl.Acquire()` with the receiver threaded through:
the body (lines 58–80) assigns to no field of `rl`, so the receiver
after the call is `rl` itself. -/
def AcquireState (rl : RedisLock) (s : Store) (now : Nat) :
    RedisLock × Store × Bool × Option RErr :=
  (rl, Acquire rl s now)

/-- Go method call `rl.Release()` with the receiver threaded through:
the body (lines 100–112) assigns to no field of `rl`. -/
def ReleaseState (rl : RedisLock) (s : Store) (now : Nat) :
    RedisLock × Store × Bool × Option RErr :=
  (rl, Release rl s now)

/-- Go `rl.TryLockTimeout(timeout)` run against the store, with the
receiver and store threaded through the loop; each sleep advances the
store clock by 70 ms. -/
def TryLockState (timeout : ℚ) (el : Nat → ℚ) :
    Nat → Nat → RedisLock × Store × Nat → (RedisLock × Store) × TLResult
  | _, 0, (rl, s, _) => ((rl, s), TLResult.outOfFuel)
  | i, fuel + 1, (rl, s, now) =>
    if el i < timeout then
      let a := Acquire rl s now
      if a.2.1 = false ∨ a.2.2 ≠ none then
        TryLockState timeout el (i + 1) fuel (rl, a.1, now + 70)
      else
        ((rl, a.1), TLResult.acquired)
    else
      ((rl, s), TLResult.timedOut timeout)

/-- Serialized `Acquire` calls by a list of handles against one store at
time `now` (the store executes each Lua script indivisibly, so racing
calls are some serialization): the final store and each handle's observed
`acquired` boolean, in order. -/
def acquireAll : List RedisLock → Store → Nat → Store × List Bool
  | [], s, _ => (s, [])
  | h :: t, s, now =>
    let a := Acquire h s now
    let r := acquireAll t a.1 now
    (r.1, a.2.1 :: r.2)

/-! ### Helper lemmas about the store and the two atomic scripts -/

theorem lookupKey_setKey_self (s : Store) (k : String) (e : Entry) :
    lookupKey (setKey s k e) k = some e := by
  simp [setKey, lookupKey]

theorem getLive_setKey_self (s : Store) (k : String) (e : Entry) (now : Nat)
    (h : now < e.expireAt) : getLive (setKey s k e) now k = some e.value := by
  simp [getLive, lookupKey_setKey_self, h]

theorem lookupKey_delKey_self (s : Store) (k : String) :
    lookupKey (delKey s k) k = none := by
  induction s with
  | nil => simp [delKey, lookupKey]
  | cons p t ih =>
    by_cases hk : p.1 = k
    · simpa [delKey, hk] using ih
    · simpa [delKey, lookupKey, hk, Ne.symm hk] using ih

theorem getLive_delKey_self (s : Store) (k : String) (now : Nat) :
    getLive (delKey s k) now k = none := by
  simp [getLive, lookupKey_delKey_self]

theorem requestedExpiry_pos (rl : RedisLock) : 0 < requestedExpiry rl := by
  simp [requestedExpiry, tolerance]

/-- `Acquire` by the current owner: extends the lease and returns
`(true, nil)`. -/
theorem Acquire_owner (rl : RedisLock) (s : Store) (now : Nat)
    (h : getLive s now rl.key = some rl.id) :
    Acquire rl s now =
      (setKey s rl.key ⟨rl.id, now + requestedExpiry rl⟩, true, none) := by
  simp [Acquire, evalLock, h, replyToResult, acquireFromResult]

/-- `Acquire` when the key is free: claims it and returns `(true, nil)`. -/
theorem Acquire_free (rl : RedisLock) (s : Store) (now : Nat)
    (h : getLive s now rl.key = none) :
    Acquire rl s now =
      (setKey s rl.key ⟨rl.id, now + requestedExpiry rl⟩, true, none) := by
  simp [Acquire, evalLock, h, replyToResult, acquireFromResult]

/-- `Acquire` while another token holds the key: the `NX` set fails (nil
reply, surfaced as `red.Nil`), the store is untouched, result
`(false, nil)`. -/
theorem Acquire_other (rl : RedisLock) (s : Store) (now : Nat) (v : String)
    (h : getLive s now rl.key = some v) (hne : v ≠ rl.id) :
    Acquire rl s now = (s, false, none) := by
  simp [Acquire, evalLock, h, hne, replyToResult, acquireFromResult]

/-- A false `Acquire` leaves the store unchanged. -/
theorem Acquire_false_frame (rl : RedisLock) (s : Store) (now : Nat)
    (h : (Acquire rl s now).2.1 = false) : (Acquire rl s now).1 = s := by
  rcases hg : getLive s now rl.key with _ | v
  · rw [Acquire_free rl s now hg] at h; simp at h
  · by_cases hv : v = rl.id
    · subst hv; rw [Acquire_owner rl s now hg] at h; simp at h
    · rw [Acquire_other rl s now v hg hv]

/-- After a true `Acquire`, the handle's token is the live value. -/
theorem Acquire_true_owner (rl : RedisLock) (s : Store) (now : Nat)
    (h : (Acquire rl s now).2.1 = true) :
    getLive (Acquire rl s now).1 now rl.key = some rl.id := by
  rcases hg : getLive s now rl.key with _ | v
  · rw [Acquire_free rl s now hg]
    exact getLive_setKey_self _ _ _ _ (by simpa using requestedExpiry_pos rl)
  · by_cases hv : v = rl.id
    · subst hv; rw [Acquire_owner rl s now hg]
      exact getLive_setKey_self _ _ _ _ (by simpa using requestedExpiry_pos rl)
    · rw [Acquire_other rl s now v hg hv] at h ⊢; simp at h

/-- While some other token `v` holds the key, a batch of serialized
`Acquire` calls by handles whose tokens all differ from `v` all fail and
leave the store unchanged. -/
theorem acquireAll_blocked (key v : String) (hs : List RedisLock)
    (s : Store) (now : Nat) (hlive : getLive s now key = some v)
    (hkeys : ∀ h ∈ hs, h.key = key) (hids : ∀ h ∈ hs, h.id ≠ v) :
    acquireAll hs s now = (s, hs.map (fun _ => false)) := by
  induction hs with
  | nil => simp [acquireAll]
  | cons h t ih =>
    have hk : h.key = key := hkeys h (List.mem_cons_self h t)
    have hi : h.id ≠ v := hids h (List.mem_cons_self h t)
    have ha : Acquire h s now = (s, false, none) := by
      apply Acquire_other h s now v
      · rw [hk]; exact hlive
      · exact fun he => hi he.symm
    have ht := ih (fun x hx => hkeys x (List.mem_cons_of_mem h hx))
      (fun x hx => hids x (List.mem_cons_of_mem h hx))
    simp [acquireAll, ha, ht]

/-- Mutual exclusion under serialization: among handles on the same key
with pairwise distinct tokens, at most one serialized `Acquire` observes
`true`. -/
theorem acquireAll_count (key : String) (hs : List RedisLock) (s : Store)
    (now : Nat) (hkeys : ∀ h ∈ hs, h.key = key)
    (hdis : hs.Pairwise (fun a b => a.id ≠ b.id)) :
    (acquireAll hs s now).2.count true ≤ 1 := by
  induction hs generalizing s with
  | nil => simp [acquireAll]
  | cons h t ih =>
    rw [List.pairwise_cons] at hdis
    have hk : h.key = key := hkeys h (List.mem_cons_self h t)
    rcases hb : (Acquire h s now).2.1 with _ | _
    · have hfr := Acquire_false_frame h s now hb
      have hrest := ih (Acquire h s now).1
        (fun x hx => hkeys x (List.mem_cons_of_mem h hx)) hdis.2
      rw [hfr] at hrest
      simp only [acquireAll, hb, hfr]
      simpa using hrest
    · have hown := Acquire_true_owner h s now hb
      rw [hk] at hown
      have hblk := acquireAll_blocked key h.id t (Acquire h s now).1 now hown
        (fun x hx => hkeys x (List.mem_cons_of_mem h hx))
        (fun x hx => fun he => hdis.1 x hx he.symm)
      simp [acquireAll, hb, hblk, List.count_cons, List.count_replicate]

/-- Every `Acquire` attempt made by `TryLockTimeout` happens while the
elapsed time observed at its iteration is below the timeout. -/
theorem TryLockTimeout_attempt_guard (t : ℚ) (el : Nat → ℚ)
    (oc : Nat → Bool × Option RErr) :
    ∀ fuel i j, TLEvent.attempt j ∈ (TryLockTimeout t el oc i fuel).1 →
      el j < t := by
  intro fuel
  induction fuel with
  | zero => intro i j hj; simp [TryLockTimeout] at hj
  | succ n ih =>
    intro i j hj
    by_cases hel : el i < t
    · by_cases hoc : (oc i).1 = false ∨ (oc i).2 ≠ none
      · simp only [TryLockTimeout, if_pos hel, if_pos hoc, List.mem_cons] at hj
        rcases hj with hj | hj | hj
        · cases hj; exact hel
        · cases hj
        · exact ih (i + 1) j hj
      · simp only [TryLockTimeout, if_pos hel, if_neg hoc,
          List.mem_singleton] at hj
        have hji : j = i := by injection hj
        rw [hji]; exact hel
    · simp [TryLockTimeout, if_neg hel] at hj

/-- The `timedOut` result always carries the configured timeout. -/
theorem TryLockTimeout_timedOut_val (t : ℚ) (el : Nat → ℚ)
    (oc : Nat → Bool × Option RErr) :
    ∀ fuel i q, (TryLockTimeout t el oc i fuel).2 = TLResult.timedOut q →
      q = t := by
  intro fuel
  induction fuel with
  | zero => intro i q hq; simp [TryLockTimeout] at hq
  | succ n ih =>
    intro i q hq
    by_cases hel : el i < t
    · by_cases hoc : (oc i).1 = false ∨ (oc i).2 ≠ none
      · simp only [TryLockTimeout, if_pos hel, if_pos hoc] at hq
        exact ih (i + 1) q hq
      · simp [TryLockTimeout, if_pos hel, if_neg hoc] at hq
    · simp only [TryLockTimeout, if_neg hel] at hq
      cases hq; rfl

/-- Exit behavior at the deadline: once the elapsed time is no longer
below the timeout, the loop makes no attempt and returns the timeout
error at once. -/
theorem TryLockTimeout_deadline (t : ℚ) (el : Nat → ℚ)
    (oc : Nat → Bool × Option RErr) (i fuel : Nat) (hel : ¬ el i < t) :
    TryLockTimeout t el oc i (fuel + 1) = ([], TLResult.timedOut t) := by
  simp [TryLockTimeout, if_neg hel]

/-- Each attempt in a `TryLockTimeout` trace is either the successful
(`(true, nil)`) final event with result `acquired`, or an unsuccessful
one immediately followed by a 70 ms sleep. -/
theorem TryLockTimeout_attempt_shape (t : ℚ) (el : Nat → ℚ)
    (oc : Nat → Bool × Option RErr) :
    ∀ fuel i k j,
      (TryLockTimeout t el oc i fuel).1.get? k = some (TLEvent.attempt j) →
      ((oc j).1 = true ∧ (oc j).2 = none ∧
        (TryLockTimeout t el oc i fuel).1.get? (k + 1) = none ∧
        (TryLockTimeout t el oc i fuel).2 = TLResult.acquired) ∨
      (((oc j).1 = false ∨ (oc j).2 ≠ none) ∧
        (TryLockTimeout t el oc i fuel).1.get? (k + 1) =
          some (TLEvent.sleep 70)) := by
  intro fuel
  induction fuel with
  | zero => intro i k j hk; simp [TryLockTimeout] at hk
  | succ n ih =>
    intro i k j hk
    by_cases hel : el i < t
    · by_cases hoc : (oc i).1 = false ∨ (oc i).2 ≠ none
      · simp only [TryLockTimeout, if_pos hel, if_pos hoc] at hk ⊢
        match k with
        | 0 =>
          simp at hk
          cases hk
          exact Or.inr ⟨hoc, rfl⟩
        | 1 => simp at hk
        | Nat.succ (Nat.succ m) =>
          simp only [List.get?] at hk ⊢
          exact ih (i + 1) m j hk
      · simp only [TryLockTimeout, if_pos hel, if_neg hoc] at hk ⊢
        push_neg at hoc
        have hb : (oc i).1 = true := by
          cases hbb : (oc i).1
          · exact absurd hbb hoc.1
          · rfl
        match k with
        | 0 =>
          have hji : TLEvent.attempt i = TLEvent.attempt j := by
            simpa [List.get?] using hk
          cases hji
          exact Or.inl ⟨hb, hoc.2, by trivial, by trivial⟩
        | Nat.succ m => simp [List.get?] at hk
    · simp [TryLockTimeout, if_neg hel] at hk

/-- `TryLockTimeout` does not distinguish contention from store errors:
runs whose per-iteration outcomes agree on "`ok` and no error" produce
identical traces and results. -/
theorem TryLockTimeout_blind (t : ℚ) (el : Nat → ℚ)
    (oc oc2 : Nat → Bool × Option RErr)
    (hoc : ∀ j, ((oc j).1 = true ∧ (oc j).2 = none) ↔
      ((oc2 j).1 = true ∧ (oc2 j).2 = none)) :
    ∀ fuel i, TryLockTimeout t el oc i fuel = TryLockTimeout t el oc2 i fuel := by
  have key : ∀ o : Bool × Option RErr,
      (o.1 = false ∨ o.2 ≠ none) ↔ ¬ (o.1 = true ∧ o.2 = none) := by
    intro o; rcases o with ⟨b, e⟩; cases b <;> cases e <;> simp
  intro fuel
  induction fuel with
  | zero => intro i; rfl
  | succ n ih =>
    intro i
    have hcond : ((oc i).1 = false ∨ (oc i).2 ≠ none) ↔
        ((oc2 i).1 = false ∨ (oc2 i).2 ≠ none) :=
      (key (oc i)).trans (((hoc i).not).trans (key (oc2 i)).symm)
    by_cases hel : el i < t
    · by_cases h : (oc i).1 = false ∨ (oc i).2 ≠ none
      · have h2 := hcond.mp h
        simp only [TryLockTimeout, if_pos hel, if_pos h, if_pos h2, ih (i + 1)]
      · have h2 := fun hh => h (hcond.mpr hh)
        simp only [TryLockTimeout, if_pos hel, if_neg h, if_neg h2]
    · simp only [TryLockTimeout, if_neg hel]

/-- `Release` by the current owner: deletes the key, returns `(true, nil)`. -/
theorem Release_owner (rl : RedisLock) (s : Store) (now : Nat)
    (h : getLive s now rl.key = some rl.id) :
    Release rl s now = (delKey s rl.key, true, none) := by
  simp [Release, evalDel, h, replyToResult, releaseFromResult]

/-- The receiver is threaded unchanged through every `TryLockState`
iteration. -/
theorem TryLockState_handle (t : ℚ) (el : Nat → ℚ) :
    ∀ (fuel i : Nat) (rl : RedisLock) (s : Store) (now : Nat),
      (TryLockState t el i fuel (rl, s, now)).1.1 = rl := by
  intro fuel
  induction fuel with
  | zero => intro i rl s now; rfl
  | succ n ih =>
    intro i rl s now
    by_cases hel : el i < t
    · by_cases hc : (Acquire rl s now).2.1 = false ∨ (Acquire rl s now).2.2 ≠ none
      · simp only [TryLockState, if_pos hel, if_pos hc]
        exact ih (i + 1) rl (Acquire rl s now).1 (now + 70)
      · simp only [TryLockState, if_pos hel, if_neg hc]
    · simp only [TryLockState, if_neg hel]

/-- `Release` by a non-owner (key free, expired, or held by another
token): the store is untouched, result `(false, nil)`. -/
theorem Release_other (rl : RedisLock) (s : Store) (now : Nat)
    (h : ¬ getLive s now rl.key = some rl.id) :
    Release rl s now = (s, false, none) := by
  simp [Release, evalDel, h, replyToResult, releaseFromResult]

/-! ### The claims -/

/-- C1: while the key is live its stored value is the token of the one
current owner — among any number of handles on the same key with
pairwise-distinct tokens whose `Acquire` calls the store serializes, at
most one observes `acquired = true`; a successful `Acquire` installs the
caller's token as the live value; and a handle whose token differs from
the live value can neither extend nor delete the key (both calls fail
and leave the store unchanged). -/
theorem claim1_mutual_exclusion :
    (∀ (key : String) (hs : List RedisLock) (s : Store) (now : Nat),
      (∀ h ∈ hs, h.key = key) → hs.Pairwise (fun a b => a.id ≠ b.id) →
      (acquireAll hs s now).2.count true ≤ 1) ∧
    (∀ (rl : RedisLock) (s : Store) (now : Nat),
      (Acquire rl s now).2.1 = true →
      getLive (Acquire rl s now).1 now rl.key = some rl.id) ∧
    (∀ (rl : RedisLock) (s : Store) (now : Nat) (v : String),
      getLive s now rl.key = some v → v ≠ rl.id →
      Acquire rl s now = (s, false, none) ∧
      Release rl s now = (s, false, none)) := by
  refine ⟨acquireAll_count, Acquire_true_owner, ?_⟩
  intro rl s now v hv hne
  refine ⟨Acquire_other rl s now v hv hne, ?_⟩
  apply Release_other
  intro h
  rw [hv] at h
  exact hne (by injection h)

/-- Witness for C1 at concrete inputs: two distinct-token handles on key
`"pk"` against the empty store see at most one `true`; a non-owner can
neither extend nor delete. -/
theorem claim1_mutual_exclusion_instance :
    (acquireAll [New "k" "p" "aa", New "k" "p" "bb"] [] 0).2.count true ≤ 1 ∧
    Acquire (New "k" "p" "bb") [("pk", ⟨"aa", 100⟩)] 0 =
      ([("pk", ⟨"aa", 100⟩)], false, none) := by
  constructor
  · exact claim1_mutual_exclusion.1 "pk" [New "k" "p" "aa", New "k" "p" "bb"]
      [] 0 (by decide) (by decide)
  · exact (claim1_mutual_exclusion.2.2 (New "k" "p" "bb")
      [("pk", ⟨"aa", 100⟩)] 0 "aa" (by decide) (by decide)).1

/-- C2: `Acquire` runs one atomic sequence: if the stored live value
equals the handle's token, the expiry is reset to
`now + requestedExpiry` and the call returns `(true, nil)`; otherwise
the key is set to the token with that expiry only when it does not
currently exist, and fails untouched when another token holds it; hence
a holder re-acquiring before expiry always gets `(true, nil)` and
retains ownership. -/
theorem claim2_acquire_semantics :
    ∀ (rl : RedisLock) (s : Store) (now : Nat),
    (getLive s now rl.key = some rl.id →
      Acquire rl s now =
        (setKey s rl.key ⟨rl.id, now + requestedExpiry rl⟩, true, none)) ∧
    (getLive s now rl.key = none →
      Acquire rl s now =
        (setKey s rl.key ⟨rl.id, now + requestedExpiry rl⟩, true, none)) ∧
    (∀ v, getLive s now rl.key = some v → v ≠ rl.id →
      Acquire rl s now = (s, false, none)) ∧
    (∀ now2, getLive s now rl.key = some rl.id →
      now2 < now + requestedExpiry rl →
      (Acquire rl s now).2 = (true, none) ∧
      getLive (Acquire rl s now).1 now2 rl.key = some rl.id) := by
  intro rl s now
  refine ⟨Acquire_owner rl s now, Acquire_free rl s now,
    fun v hv hne => Acquire_other rl s now v hv hne, ?_⟩
  intro now2 hown hlt
  rw [Acquire_owner rl s now hown]
  exact ⟨rfl, getLive_setKey_self _ _ _ _ hlt⟩

/-- Witness for C2 at a concrete input: the holder of `"pk"` re-acquires
and its lease is reset. -/
theorem claim2_acquire_semantics_instance :
    Acquire ⟨3, "pk", "aa"⟩ [("pk", ⟨"aa", 100⟩)] 0 =
      (setKey [("pk", ⟨"aa", 100⟩)] "pk" ⟨"aa", 0 + requestedExpiry ⟨3, "pk", "aa"⟩⟩,
        true, none) ∧
    getLive (Acquire ⟨3, "pk", "aa"⟩ [("pk", ⟨"aa", 100⟩)] 0).1 3000 "pk" =
      some "aa" := by
  refine ⟨(claim2_acquire_semantics ⟨3, "pk", "aa"⟩ [("pk", ⟨"aa", 100⟩)] 0).1
    (by decide), ?_⟩
  exact ((claim2_acquire_semantics ⟨3, "pk", "aa"⟩ [("pk", ⟨"aa", 100⟩)] 0).2.2.2
    3000 (by decide) (by decide)).2

/-- C3: `Release` deletes the key and returns `(true, nil)` exactly when
the live value equals the caller's token; otherwise it returns
`(false, nil)` and leaves the store unchanged; and the error-handling
tail of `Release` yields a non-nil error only when the store round trip
itself failed. -/
theorem claim3_release_semantics :
    (∀ (rl : RedisLock) (s : Store) (now : Nat),
      (getLive s now rl.key = some rl.id →
        Release rl s now = (delKey s rl.key, true, none) ∧
        getLive (Release rl s now).1 now rl.key = none) ∧
      (¬ getLive s now rl.key = some rl.id →
        Release rl s now = (s, false, none))) ∧
    (∀ (res : Except RErr Reply) (e : RErr),
      (releaseFromResult res).2 = some e → res = Except.error e) := by
  constructor
  · intro rl s now
    refine ⟨?_, Release_other rl s now⟩
    intro h
    refine ⟨Release_owner rl s now h, ?_⟩
    rw [Release_owner rl s now h]
    exact getLive_delKey_self _ _ _
  · intro res e h
    match res with
    | Except.error e2 =>
      simp [releaseFromResult] at h
      rw [h]
    | Except.ok (Reply.num n) => simp [releaseFromResult] at h
    | Except.ok (Reply.str v) => simp [releaseFromResult] at h
    | Except.ok Reply.nilv => simp [releaseFromResult] at h

/-- Witness for C3 at concrete inputs: the owner's `Release` deletes the
key; a non-owner's `Release` changes nothing. -/
theorem claim3_release_semantics_instance :
    Release ⟨3, "pk", "aa"⟩ [("pk", ⟨"aa", 100⟩)] 0 = ([], true, none) ∧
    Release ⟨3, "pk", "bb"⟩ [("pk", ⟨"aa", 100⟩)] 0 =
      ([("pk", ⟨"aa", 100⟩)], false, none) := by
  constructor
  · exact ((claim3_release_semantics.1 ⟨3, "pk", "aa"⟩
      [("pk", ⟨"aa", 100⟩)] 0).1 (by decide)).1
  · exact (claim3_release_semantics.1 ⟨3, "pk", "bb"⟩
      [("pk", ⟨"aa", 100⟩)] 0).2 (by decide)

/-- C4: the reply handling of `Acquire` returns `(true, nil)` exactly
for the string reply `"OK"`; a `red.Nil` (failed set-if-not-exists / no
value) and every unrecognized reply shape give `(false, nil)`; and a
non-nil error comes back exactly when the round trip itself failed with
a communication error. -/
theorem claim4_acquire_replies :
    ∀ res : Except RErr Reply,
    ((acquireFromResult res).1 = true ↔ res = Except.ok (Reply.str "OK")) ∧
    (acquireFromResult (Except.error RErr.redNil) = (false, none)) ∧
    (∀ r : Reply, r ≠ Reply.str "OK" →
      acquireFromResult (Except.ok r) = (false, none)) ∧
    (∀ m : String, acquireFromResult (Except.error (RErr.comm m)) =
      (false, some (RErr.comm m))) ∧
    ((acquireFromResult res).2 ≠ none →
      ∃ m, res = Except.error (RErr.comm m)) := by
  have hshape : ∀ r : Reply, r ≠ Reply.str "OK" →
      acquireFromResult (Except.ok r) = (false, none) := by
    intro r hr
    match r with
    | Reply.nilv => rfl
    | Reply.num n => rfl
    | Reply.str v =>
      have : ¬ v = "OK" := fun h => hr (by rw [h])
      simp [acquireFromResult, this]
  intro res
  refine ⟨?_, rfl, hshape, fun m => rfl, ?_⟩
  · match res with
    | Except.error RErr.redNil => simp [acquireFromResult]
    | Except.error (RErr.comm m) => simp [acquireFromResult]
    | Except.ok (Reply.str v) =>
      by_cases hv : v = "OK" <;> simp [acquireFromResult, hv]
    | Except.ok (Reply.num n) => simp [acquireFromResult]
    | Except.ok Reply.nilv => simp [acquireFromResult]
  · match res with
    | Except.error RErr.redNil => simp [acquireFromResult]
    | Except.error (RErr.comm m) => intro h; exact ⟨m, rfl⟩
    | Except.ok (Reply.str v) =>
      by_cases hv : v = "OK" <;> simp [acquireFromResult, hv]
    | Except.ok (Reply.num n) => simp [acquireFromResult]
    | Except.ok Reply.nilv => simp [acquireFromResult]

/-- Witness for C4 at concrete replies: an integer reply is an
unrecognized shape giving `(false, nil)`, and only `"OK"` acquires. -/
theorem claim4_acquire_replies_instance :
    acquireFromResult (Except.ok (Reply.num 1)) = (false, none) ∧
    (acquireFromResult (Except.ok (Reply.str "OK"))).1 = true := by
  constructor
  · exact (claim4_acquire_replies (Except.ok (Reply.num 1))).2.2.1
      (Reply.num 1) (by decide)
  · exact (claim4_acquire_replies (Except.ok (Reply.str "OK"))).1.mpr rfl

/-- C5: the retry wrapper attempts `Acquire` only while the observed
elapsed time is below the timeout; a successful (`(true, nil)`) attempt
is the final event and returns `acquired` at once, while every
unsuccessful attempt is followed by a fixed 70 ms sleep; a `(false,
nil)` and a non-nil-error outcome are treated identically; and reaching
the deadline without success returns the failure carrying exactly the
configured timeout value. -/
theorem claim5_retry_wrapper :
    ∀ (t : ℚ) (el : Nat → ℚ) (oc : Nat → Bool × Option RErr) (fuel i : Nat),
    (∀ j, TLEvent.attempt j ∈ (TryLockTimeout t el oc i fuel).1 →
      el j < t) ∧
    (∀ k j, (TryLockTimeout t el oc i fuel).1.get? k =
        some (TLEvent.attempt j) →
      ((oc j).1 = true ∧ (oc j).2 = none ∧
        (TryLockTimeout t el oc i fuel).1.get? (k + 1) = none ∧
        (TryLockTimeout t el oc i fuel).2 = TLResult.acquired) ∨
      (((oc j).1 = false ∨ (oc j).2 ≠ none) ∧
        (TryLockTimeout t el oc i fuel).1.get? (k + 1) =
          some (TLEvent.sleep 70))) ∧
    (∀ q, (TryLockTimeout t el oc i fuel).2 = TLResult.timedOut q →
      q = t) ∧
    (¬ el i < t →
      TryLockTimeout t el oc i (fuel + 1) = ([], TLResult.timedOut t)) ∧
    (∀ oc2 : Nat → Bool × Option RErr,
      (∀ j, ((oc j).1 = true ∧ (oc j).2 = none) ↔
        ((oc2 j).1 = true ∧ (oc2 j).2 = none)) →
      TryLockTimeout t el oc i fuel = TryLockTimeout t el oc2 i fuel) := by
  intro t el oc fuel i
  exact ⟨fun j => TryLockTimeout_attempt_guard t el oc fuel i j,
    fun k j => TryLockTimeout_attempt_shape t el oc fuel i k j,
    fun q => TryLockTimeout_timedOut_val t el oc fuel i q,
    fun h => TryLockTimeout_deadline t el oc i fuel h,
    fun oc2 h => TryLockTimeout_blind t el oc oc2 h fuel i⟩

/-- Witness for C5 at concrete inputs: with elapsed time already at 1 s
and a 1/2 s timeout, the loop makes no attempt and reports the
configured timeout. -/
theorem claim5_retry_wrapper_instance :
    TryLockTimeout (1/2) (fun i => i) (fun _ => (false, none)) 1 4 =
      ([], TLResult.timedOut (1/2)) := by
  exact (claim5_retry_wrapper (1/2) (fun i => i) (fun _ => (false, none))
    3 1).2.2.2.1 (by norm_num)

/-- C6: from any state where a handle holds the key,
Acquire–Release–Acquire by that handle succeeds at each step (a clean
release never leaves the key irrecoverably held), and the concrete
two-handle scenario on `"lock:" + "job:42"` plays out as specified. -/
theorem claim6_round_trip :
    (∀ (rl : RedisLock) (s : Store) (now : Nat),
      getLive s now rl.key = some rl.id →
      (Acquire rl s now).2.1 = true ∧
      (Release rl (Acquire rl s now).1 now).2.1 = true ∧
      (Acquire rl (Release rl (Acquire rl s now).1 now).1 now).2.1 =
        true) ∧
    (let h1 := New "job:42" "lock:" "aAbBcCdDeEfFgGhH"
     let h2 := New "job:42" "lock:" "zZyYxXwWvVuUtTsS"
     let a1 := Acquire h1 [] 0
     let a2 := Acquire h2 a1.1 0
     let r1 := Release h1 a2.1 0
     let a3 := Acquire h2 r1.1 0
     let r2 := Release h1 a3.1 0
     a1.2 = (true, none) ∧ a2.2 = (false, none) ∧ r1.2 = (true, none) ∧
     a3.2 = (true, none) ∧ r2.2 = (false, none)) := by
  constructor
  · intro rl s now h
    have ha := Acquire_owner rl s now h
    have hown : getLive (Acquire rl s now).1 now rl.key = some rl.id := by
      rw [ha]
      exact getLive_setKey_self _ _ _ _ (by simpa using requestedExpiry_pos rl)
    have hr := Release_owner rl (Acquire rl s now).1 now hown
    have hfree : getLive (Release rl (Acquire rl s now).1 now).1 now rl.key =
        none := by
      rw [hr]
      exact getLive_delKey_self _ _ _
    have ha2 := Acquire_free rl (Release rl (Acquire rl s now).1 now).1 now hfree
    refine ⟨by rw [ha], by rw [hr], by rw [ha2]⟩
  · decide

/-- Witness for C6 at a concrete input: a handle holding `"pk"` runs
Acquire, Release, Acquire and succeeds each time. -/
theorem claim6_round_trip_instance :
    (Acquire ⟨3, "pk", "aa"⟩ [("pk", ⟨"aa", 100⟩)] 0).2.1 = true ∧
    (Release ⟨3, "pk", "aa"⟩
      (Acquire ⟨3, "pk", "aa"⟩ [("pk", ⟨"aa", 100⟩)] 0).1 0).2.1 = true ∧
    (Acquire ⟨3, "pk", "aa"⟩
      (Release ⟨3, "pk", "aa"⟩
        (Acquire ⟨3, "pk", "aa"⟩ [("pk", ⟨"aa", 100⟩)] 0).1 0).1 0).2.1 =
      true := by
  exact claim6_round_trip.1 ⟨3, "pk", "aa"⟩ [("pk", ⟨"aa", 100⟩)] 0 (by decide)

/-- C7: every `Acquire` requests an expiry of
`leaseSeconds * 1000 + 500` milliseconds from the store (the entry it
installs on a free key expires exactly that much later), and a freshly
constructed handle has the default `seconds = 3`. -/
theorem claim7_expiry_constant :
    (∀ k p tok : String, (New k p tok).seconds = 3) ∧
    (∀ rl : RedisLock, requestedExpiry rl = rl.seconds * 1000 + 500) ∧
    (∀ (rl : RedisLock) (s : Store) (now : Nat),
      getLive s now rl.key = none →
      lookupKey (Acquire rl s now).1 rl.key =
        some ⟨rl.id, now + (rl.seconds * 1000 + 500)⟩) := by
  refine ⟨fun k p tok => rfl,
    fun rl => by simp [requestedExpiry, millisPerSecond, tolerance], ?_⟩
  intro rl s now h
  rw [Acquire_free rl s now h]
  have := lookupKey_setKey_self s rl.key
    ⟨rl.id, now + requestedExpiry rl⟩
  simpa [requestedExpiry, millisPerSecond, tolerance] using this

/-- Witness for C7 at a concrete input: a fresh handle acquiring a free
key installs an entry expiring `3 * 1000 + 500` ms later. -/
theorem claim7_expiry_constant_instance :
    (New "job:42" "lock:" "aa").seconds = 3 ∧
    lookupKey (Acquire (New "job:42" "lock:" "aa") [] 7).1 "lock:job:42" =
      some ⟨"aa", 7 + (3 * 1000 + 500)⟩ := by
  refine ⟨claim7_expiry_constant.1 "job:42" "lock:" "aa", ?_⟩
  exact claim7_expiry_constant.2.2 (New "job:42" "lock:" "aa") [] 7 (by decide)

/-- C8: `SetExpire` takes a signed `int` and stores `uint32(seconds)`,
so a negative argument wraps modulo `2^32`: `SetExpire(-1)` stores
`4294967295`, making the next `Acquire` request
`4294967295 * 1000 + 500` ms instead of rejecting or clamping. -/
theorem claim8_setexpire_wrap :
    ∀ (rl : RedisLock) (n : Int),
    (n < 0 → -(2 ^ 32 : Int) ≤ n →
      ((SetExpire rl n).seconds : Int) = n + 2 ^ 32) ∧
    (SetExpire rl (-1)).seconds = 4294967295 ∧
    requestedExpiry (SetExpire rl (-1)) = 4294967295500 := by
  intro rl n
  refine ⟨?_, ?_, ?_⟩
  · intro hneg hge
    have h0 : (0 : Int) ≤ n % 2 ^ 32 := Int.emod_nonneg n (by norm_num)
    simp only [SetExpire, Int.toNat_of_nonneg h0]
    omega
  · norm_num [SetExpire]
    omega
  · norm_num [SetExpire, requestedExpiry, millisPerSecond, tolerance]
    omega

/-- Witness for C8 at a concrete input: `SetExpire(-5)` on a fresh
handle stores `2^32 - 5`. -/
theorem claim8_setexpire_wrap_instance :
    ((SetExpire (New "k" "p" "t") (-5)).seconds : Int) = -5 + 2 ^ 32 :=
  (claim8_setexpire_wrap (New "k" "p" "t") (-5)).1 (by norm_num) (by norm_num)

/-- C9: with a non-positive timeout and the (always non-negative)
elapsed-time reading, `TryLockTimeout` makes no `Acquire` attempt at all
(empty trace) and returns the timeout failure immediately — even though
the lock may be free. -/
theorem claim9_nonpositive_timeout :
    ∀ (t : ℚ) (el : Nat → ℚ) (oc : Nat → Bool × Option RErr) (i fuel : Nat),
    t ≤ 0 → 0 ≤ el i →
    TryLockTimeout t el oc i (fuel + 1) = ([], TLResult.timedOut t) := by
  intro t el oc i fuel ht hel
  exact TryLockTimeout_deadline t el oc i fuel (by linarith)

/-- Witness for C9 at a concrete input: timeout 0 against a free store
(every attempt would succeed) still fails with no attempt. -/
theorem claim9_nonpositive_timeout_instance :
    TryLockTimeout 0 (fun i => i) (fun _ => (true, none)) 0 6 =
      ([], TLResult.timedOut 0) :=
  claim9_nonpositive_timeout 0 (fun i => i) (fun _ => (true, none)) 0 5
    le_rfl (by norm_num)

/-- C10: no operation writes the handle's `key` or `id`: `SetExpire`
changes only the `seconds` field, and `Acquire`, `Release` and
`TryLockTimeout` (whose bodies assign to no receiver field) leave the
threaded receiver entirely unchanged. -/
theorem claim10_handle_frame :
    ∀ (rl : RedisLock) (n : Int) (s : Store) (now : Nat) (t : ℚ)
      (el : Nat → ℚ) (i fuel : Nat),
    (SetExpire rl n).key = rl.key ∧ (SetExpire rl n).id = rl.id ∧
    (AcquireState rl s now).1 = rl ∧ (ReleaseState rl s now).1 = rl ∧
    (TryLockState t el i fuel (rl, s, now)).1.1 = rl := by
  intro rl n s now t el i fuel
  exact ⟨rfl, rfl, rfl, rfl, TryLockState_handle t el fuel i rl s now⟩
